import Mathlib

/-!
Shallow embedding of the person-guide gRPC server
(src/server/server.go, service definition src/personguide/person_guide.proto).

The data model follows the protobuf messages; the four handlers
(`GetPhone`, `ListPersons`, `RecordPersons`, `RoutePhones`) are translated
from the Go methods of `PersonGuideServer`.  Streams are modelled as lists
of receive results; server time is threaded explicitly; the mutex and
network sends of the bidirectional handler are modelled as events in a
trace so that lock discipline can be stated.
-/

/-- `personguide.PhoneType` enum: MOBILE = 0, HOME = 1, WORK = 2. -/
inductive PhoneType where
  | mobile
  | home
  | work
deriving DecidableEq, Repr

/-- `personguide.PhoneNumber` message: a number string and a phone type. -/
structure PhoneNumber where
  number : String
  type : PhoneType
deriving DecidableEq, Repr

/-- The zero value `&pb.PhoneNumber{}` (proto3 defaults: empty string, MOBILE). -/
def emptyPhoneNumber : PhoneNumber :=
  { number := "", type := PhoneType.mobile }

/-- `personguide.Person` message.  `lastUpdated` models the
`google.protobuf.Timestamp last_updated` field; server timestamps are
abstracted as natural numbers, `none` meaning the field is unset. -/
structure Person where
  name : String
  id : Int
  email : String
  phones : List PhoneNumber
  lastUpdated : Option Nat
deriving DecidableEq, Repr

/-- `personguide.AddressBook` message: a repeated `Person` field. -/
structure AddressBook where
  people : List Person
deriving DecidableEq, Repr

/-- `personguide.Adress` message: the query whose `name` field the
enumeration handler receives (and ignores). -/
structure Adress where
  name : String
deriving DecidableEq, Repr

/-- The server state of `PersonGuideServer` (server.go): `savedPersons` is
the person registry; `addressbook` models `s.addressbook["book"][0]`, the
single address book the collector appends to and returns (the Go map holds
only the key `"book"`, and only index 0 of its slice is ever touched). -/
structure PersonGuideServer where
  savedPersons : List Person
  addressbook : AddressBook
deriving DecidableEq, Repr

/-- Result of the unary `GetPhone` handler.  The Go method returns a
`(*pb.PhoneNumber, error)` pair; `ok` is a nil error, `err` carries the
returned phone together with the error message, and `panic` models the
runtime panic raised by `p.GetPhones()[0]` on an empty slice. -/
inductive GetPhoneResult where
  | ok (ph : PhoneNumber)
  | err (ph : PhoneNumber) (msg : String)
  | panic (msg : String)
deriving DecidableEq, Repr

/-- `GetPhone` (server.go lines 44-52): linear scan of `savedPersons`; on
the first record whose `Id` matches, return `p.GetPhones()[0]` — which
panics when the phone list is empty; otherwise fall through to
`(&pb.PhoneNumber{}, errors.New("Not found person"))`. -/
def GetPhone : List Person → Person → GetPhoneResult
  | [], _ => GetPhoneResult.err emptyPhoneNumber "Not found person"
  | p :: rest, person =>
    if p.id = person.id then
      match p.phones with
      | [] => GetPhoneResult.panic "index out of range"
      | ph :: _ => GetPhoneResult.ok ph
    else
      GetPhone rest person

/-- `ListPersons` (server.go lines 55-63): iterate `savedPersons`, sending
each person in order (the `adress` argument is only printed, never used to
filter).  The emitted response sequence is modelled as the list built by
the send loop. -/
def ListPersons (savedPersons : List Person) (adress : Adress) : List Person :=
  savedPersons.foldl (fun acc person => acc ++ [person]) []

/-- The fixed seed phone list `phones` (server.go example data). -/
def phones : List PhoneNumber :=
  [ { number := "1234", type := PhoneType.home },
    { number := "4321", type := PhoneType.work },
    { number := "4312", type := PhoneType.mobile } ]

/-- The fixed seed registry `exampleData` (server.go example data). -/
def exampleData : List Person :=
  [ { name := "Juan", id := 1, email := "juan@gmail.com", phones := phones, lastUpdated := none },
    { name := "Gabriel", id := 2, email := "gabriel@gmail.com", phones := phones, lastUpdated := none },
    { name := "Albert", id := 3, email := "albert@gmail.com", phones := phones, lastUpdated := none },
    { name := "Mark", id := 4, email := "mark@gmail.com", phones := phones, lastUpdated := none },
    { name := "Brian", id := 5, email := "brian@gmail.com", phones := phones, lastUpdated := none },
    { name := "Kevin", id := 6, email := "kevin@gmail.com", phones := phones, lastUpdated := none },
    { name := "Ryan", id := 7, email := "ryan@gmail.com", phones := phones, lastUpdated := none },
    { name := "May", id := 8, email := "may@gmail.com", phones := phones, lastUpdated := none },
    { name := "Rosario", id := 9, email := "rosario@gmail.com", phones := phones, lastUpdated := none },
    { name := "Argentina", id := 10, email := "argentina@gmail.com", phones := phones, lastUpdated := none } ]

/-- `exampleAdressBook[0]` (server.go example data): the one address book,
initially holding the seed registry. -/
def exampleAdressBook : AddressBook :=
  { people := exampleData }

/-- `newServer` / `loadFeatures` (server.go): the freshly started server,
with `savedPersons := exampleData` and `addressbook["book"] :=
exampleAdressBook`. -/
def newServer : PersonGuideServer :=
  { savedPersons := exampleData, addressbook := exampleAdressBook }

/-- A Go error value as seen by the streaming handlers: `io.EOF` or any
other error (carrying its message). -/
inductive GoErr where
  | eof
  | fail (msg : String)
deriving DecidableEq, Repr

/-- One result of `stream.Recv()` in the collector: the returned
`(*pb.Person, error)` pair, together with the server time `time.Now()`
would report during that loop iteration. -/
structure RecvStep where
  time : Nat
  person : Option Person
  err : Option GoErr
deriving DecidableEq, Repr

/-- The gRPC receive contract: each `Recv` yields either a non-nil message
with a nil error, or a nil message with a non-nil error — never both
non-nil. -/
def recvOk (st : RecvStep) : Prop :=
  (st.person.isSome ∧ st.err = none) ∨ (st.person = none ∧ st.err.isSome)

/-- `timestamppb.New(time.Now())` followed by `lastPerson.LastUpdated = ts`:
stamp a person with the server time, overwriting any client value. -/
def stamp (now : Nat) (p : Person) : Person :=
  { p with lastUpdated := some now }

/-- The synthetic record `p` the collector builds on end-of-input
(server.go lines 80-86). -/
def syntheticPerson : Person :=
  { name := "Another part in the world", id := 11,
    email := "anotherpartintheworld@gmail.com", phones := phones,
    lastUpdated := none }

/-- How a `RecordPersons` session ends: `snapshot` models
`stream.SendAndClose(s.addressbook["book"][0])`, `err` models returning a
non-EOF receive error to the caller. -/
inductive RecordOutcome where
  | snapshot (book : AddressBook)
  | err (msg : String)
deriving DecidableEq, Repr

/-- `RecordPersons` (server.go lines 68-94), one loop iteration per receive
result.  Faithful to the Go control flow: the append into `savedPersons`
happens only when `err != nil && person != nil`; on `io.EOF` the synthetic
record is appended to `addressbook["book"][0].People` and that book is sent
as the snapshot; any other non-nil error is returned; a nil error continues
the loop.  Returns the final server state and `some` outcome, or `none`
when the supplied receive trace runs out before the stream terminates. -/
def RecordPersons : List RecvStep → PersonGuideServer →
    PersonGuideServer × Option RecordOutcome
  | [], s => (s, none)
  | st :: rest, s =>
    let s1 :=
      match st.err, st.person with
      | some _, some p =>
        { s with savedPersons := s.savedPersons ++ [stamp st.time p] }
      | _, _ => s
    match st.err with
    | some GoErr.eof =>
      let book1 : AddressBook :=
        { people := s1.addressbook.people ++ [syntheticPerson] }
      ({ s1 with addressbook := book1 }, some (RecordOutcome.snapshot book1))
    | some (GoErr.fail m) => (s1, some (RecordOutcome.err m))
    | none => RecordPersons rest s1

/-- One inbound result of `stream.Recv()` in the bidirectional handler
(`RoutePhones` uses no server time). -/
inductive RouteIn where
  | msg (p : Person)
  | eof
  | fail (msg : String)
deriving DecidableEq, Repr

/-- Observable event of a `RoutePhones` session: receives, the mutex
`s.mu`, the guarded copy-out, and sends (`sendFail` is a `stream.Send`
that returns a non-nil error, aborting the session). -/
inductive RouteEvent where
  | recvMsg (p : Person)
  | recvEof
  | recvErr (msg : String)
  | lock
  | copy (rn : List PhoneNumber)
  | unlock
  | send (ph : PhoneNumber)
  | sendFail (ph : PhoneNumber)
deriving DecidableEq, Repr

/-- `rn := make([]*pb.PhoneNumber, len(person.Phones)); copy(rn, person.Phones)`:
element-wise copy of the phone slice. -/
def copySlice : List PhoneNumber → List PhoneNumber
  | [] => []
  | ph :: rest => ph :: copySlice rest

/-- The send loop `for _, phone := range rn { stream.Send(phone) }`.
`oracle` supplies the outcome of each network send in order (`true` =
nil error; an exhausted oracle means sends keep succeeding).  Returns the
emitted events, the unconsumed oracle, and whether the loop completed
without a send failure. -/
def sendLoop : List PhoneNumber → List Bool → List RouteEvent × List Bool × Bool
  | [], o => ([], o, true)
  | ph :: rest, [] =>
    let r := sendLoop rest []
    (RouteEvent.send ph :: r.1, r.2)
  | ph :: rest, true :: o =>
    let r := sendLoop rest o
    (RouteEvent.send ph :: r.1, r.2)
  | ph :: _, false :: o => ([RouteEvent.sendFail ph], o, false)

/-- `RoutePhones` (server.go lines 98-121) as an event trace.  Per loop
iteration: receive; on EOF return nil; on error return it; otherwise lock
`s.mu`, copy the inbound record's phone slice, unlock, then send each
copied phone in order, aborting the session on a send failure.  The server
state `s` is the method receiver; the handler only touches its mutex. -/
def RoutePhones (s : PersonGuideServer) : List Bool → List RouteIn → List RouteEvent
  | _, [] => []
  | _, RouteIn.eof :: _ => [RouteEvent.recvEof]
  | _, RouteIn.fail m :: _ => [RouteEvent.recvErr m]
  | o, RouteIn.msg p :: rest =>
    let rn := copySlice p.phones
    let r := sendLoop rn o
    RouteEvent.recvMsg p :: RouteEvent.lock :: RouteEvent.copy rn ::
      RouteEvent.unlock ::
      (r.1 ++ if r.2.2 then RoutePhones s r.2.1 rest else [])

/-- Boolean form of the gRPC receive contract: each `Recv` yields either a
non-nil message with a nil error, or a nil message with a non-nil error —
never both non-nil.  (`recvOk` above is its propositional form.) -/
def recvOkB (st : RecvStep) : Bool :=
  (st.person.isSome && st.err.isNone) || (st.person.isNone && st.err.isSome)

/-- The phones a `RoutePhones` session sends after an event and before the
next receive (or the end of the trace): the per-record response sequence. -/
def sendsBeforeNextRecv : List RouteEvent → List PhoneNumber
  | [] => []
  | RouteEvent.recvMsg _ :: _ => []
  | RouteEvent.recvEof :: _ => []
  | RouteEvent.recvErr _ :: _ => []
  | RouteEvent.send ph :: rest => ph :: sendsBeforeNextRecv rest
  | RouteEvent.lock :: rest => sendsBeforeNextRecv rest
  | RouteEvent.copy _ :: rest => sendsBeforeNextRecv rest
  | RouteEvent.unlock :: rest => sendsBeforeNextRecv rest
  | RouteEvent.sendFail _ :: rest => sendsBeforeNextRecv rest

/-- A trace is empty or begins with a receive event (used to delimit the
response sequence of one inbound record from the next iteration). -/
def startsWithRecv : List RouteEvent → Bool
  | [] => true
  | RouteEvent.recvMsg _ :: _ => true
  | RouteEvent.recvEof :: _ => true
  | RouteEvent.recvErr _ :: _ => true
  | _ => false

/-- Network send events (successful or failing). -/
def isSendEvent : RouteEvent → Bool
  | RouteEvent.send _ => true
  | RouteEvent.sendFail _ => true
  | _ => false

/-- Mutex discipline over a `RoutePhones` trace, scanning with a
held/not-held flag: while the guard is held only the copy-out may occur
(no send, receive, or re-lock), `unlock` requires the guard to be held,
and the trace must end with the guard released. -/
def guardRespected : List RouteEvent → Bool → Bool
  | [], held => !held
  | RouteEvent.lock :: rest, false => guardRespected rest true
  | RouteEvent.lock :: _, true => false
  | RouteEvent.unlock :: rest, true => guardRespected rest false
  | RouteEvent.unlock :: _, false => false
  | RouteEvent.copy _ :: rest, held => guardRespected rest held
  | _ :: rest, held => if held then false else guardRespected rest false

/-- Concrete inbound record for exercising `RecordPersons`: a client
record with a client-supplied timestamp. -/
def zoe : Person :=
  { name := "Zoe", id := 42, email := "zoe@example.com",
    phones := [ { number := "5550", type := PhoneType.mobile } ],
    lastUpdated := some 7 }

/-- Concrete receive trace: one well-formed inbound record at server time
5, then end-of-input at server time 6. -/
def oneRecordSession : List RecvStep :=
  [ { time := 5, person := some zoe, err := none },
    { time := 6, person := none, err := some GoErr.eof } ]

/-- Concrete registry for exercising `GetPhone`: one record whose id
matches the query below but whose phone list is empty. -/
def phonelessPerson : Person :=
  { name := "Empty", id := 7, email := "empty@example.com",
    phones := [], lastUpdated := none }

/-- Concrete `GetPhone` request for id 7. -/
def queryFor7 : Person :=
  { name := "", id := 7, email := "", phones := [], lastUpdated := none }

/-- The accumulating send loop of `ListPersons` emits its input unchanged. -/
theorem foldl_snoc (l acc : List Person) :
    l.foldl (fun acc person => acc ++ [person]) acc = acc ++ l := by
  induction l generalizing acc with
  | nil => simp
  | cons p rest ih => simp [List.foldl, ih]

/-- C4: `ListPersons` emits every registry record in insertion order, and
the `Adress` filter has no effect: any two filter values yield identical
output sequences. -/
theorem ListPersons_ignores_filter (saved : List Person) (a1 a2 : Adress) :
    ListPersons saved a1 = saved ∧ ListPersons saved a1 = ListPersons saved a2 := by
  constructor
  · simpa [ListPersons] using foldl_snoc saved []
  · rfl

/-- C2 (failing input): on a registry whose only record has id 7 and an
empty phone list, a `GetPhone` request for id 7 panics with an index
out of range — it does not return the `NotFound` error with the zero-value
phone, contradicting the claimed conflation of "no person" and "person has
no phone". -/
theorem GetPhone_empty_phones_panics :
    GetPhone [phonelessPerson] queryFor7 = GetPhoneResult.panic "index out of range" ∧
    ∀ ph msg, GetPhone [phonelessPerson] queryFor7 ≠ GetPhoneResult.err ph msg := by
  refine ⟨rfl, ?_⟩
  intro ph msg h
  rw [show GetPhone [phonelessPerson] queryFor7 =
      GetPhoneResult.panic "index out of range" from rfl] at h
  exact GetPhoneResult.noConfusion h

/-- C1 (failing input): a session receiving one well-formed record (`zoe`)
and then end-of-input appends nothing to `savedPersons` — the guard
`err != nil && person != nil` never fires under the receive contract — and
the returned snapshot is the prior address book plus only the synthetic
record; the stamped inbound record appears nowhere in it. -/
theorem RecordPersons_drops_inbound :
    (RecordPersons oneRecordSession newServer).1.savedPersons = newServer.savedPersons ∧
    (RecordPersons oneRecordSession newServer).2 =
      some (RecordOutcome.snapshot { people := exampleData ++ [syntheticPerson] }) ∧
    stamp 5 zoe ∉ exampleData ++ [syntheticPerson] := by
  refine ⟨rfl, rfl, by decide⟩

/-- C5 (counterexample): the claim fails on reachable states.  After one
completed zero-record session against the fresh server, the registry
(`savedPersons`) is still the seed data but the address book has gained a
synthetic record; a second zero-record session then returns a snapshot
with two synthetic records, which differs from the registry at its
session start plus the one synthetic record. -/
theorem RecordPersons_zero_records_not_registry :
    (RecordPersons [{ time := 1, person := none, err := some GoErr.eof }]
        (RecordPersons [{ time := 0, person := none, err := some GoErr.eof }] newServer).1).2 =
      some (RecordOutcome.snapshot
        { people := exampleData ++ [syntheticPerson, syntheticPerson] }) ∧
    (RecordPersons [{ time := 0, person := none, err := some GoErr.eof }]
        newServer).1.savedPersons ++ [syntheticPerson] =
      exampleData ++ [syntheticPerson] ∧
    ({ people := exampleData ++ [syntheticPerson, syntheticPerson] } : AddressBook).people ≠
      exampleData ++ [syntheticPerson] :=
  ⟨rfl, rfl, by decide⟩

/-- C5 (amended): a session with zero inbound records before end-of-input
returns, for every server state, a snapshot equal to the address book at
session start plus the one synthetic record appended by this session;
this coincides with the registry plus one synthetic only while the
address book still mirrors the registry, as at server startup. -/
theorem RecordPersons_empty_session_book (s : PersonGuideServer) (t : Nat) :
    RecordPersons [{ time := t, person := none, err := some GoErr.eof }] s =
      ({ s with addressbook := { people := s.addressbook.people ++ [syntheticPerson] } },
       some (RecordOutcome.snapshot { people := s.addressbook.people ++ [syntheticPerson] })) :=
  rfl

/-- C6: when every read before it succeeds and then a read fails with a
non-EOF error, `RecordPersons` returns that error with the server state
unchanged: the failure propagates and no snapshot, partial or otherwise,
is sent. -/
theorem RecordPersons_read_failure (pre : List RecvStep) (s : PersonGuideServer)
    (t : Nat) (m : String) (h : ∀ st ∈ pre, st.err = none) :
    RecordPersons (pre ++ [{ time := t, person := none, err := some (GoErr.fail m) }]) s =
      (s, some (RecordOutcome.err m)) := by
  induction pre generalizing s with
  | nil => rfl
  | cons st rest ih =>
    obtain ⟨tt, pp, ee⟩ := st
    have hst : ee = none := h _ (List.mem_cons_self _ _)
    subst hst
    exact ih s (fun x hx => h x (List.mem_cons_of_mem _ hx))

/-- Witness for C6: one successful read, then a transport failure. -/
theorem RecordPersons_read_failure_witness :
    (∀ st ∈ [({ time := 1, person := some zoe, err := none } : RecvStep)], st.err = none) ∧
    RecordPersons ([{ time := 1, person := some zoe, err := none }] ++
        [{ time := 2, person := none, err := some (GoErr.fail "connection reset") }]) newServer =
      (newServer, some (RecordOutcome.err "connection reset")) :=
  ⟨by decide,
   RecordPersons_read_failure [{ time := 1, person := some zoe, err := none }]
     newServer 2 "connection reset" (by decide)⟩

/-- C10: under the receive contract, a `RecordPersons` session appends no
inbound record: `savedPersons` is identical before and after, any returned
snapshot equals the address book at session start plus the one synthetic
record (so contains no inbound record), and on any outcome other than a
snapshot the server state is wholly unchanged. -/
theorem RecordPersons_frame (steps : List RecvStep) (s : PersonGuideServer)
    (h : ∀ st ∈ steps, recvOkB st = true) :
    (RecordPersons steps s).1.savedPersons = s.savedPersons ∧
    (∀ b, (RecordPersons steps s).2 = some (RecordOutcome.snapshot b) →
      b.people = s.addressbook.people ++ [syntheticPerson] ∧
      (RecordPersons steps s).1.addressbook = b) ∧
    ((RecordPersons steps s).2 = none ∨ (∃ m, (RecordPersons steps s).2 = some (RecordOutcome.err m)) →
      (RecordPersons steps s).1 = s) := by
  induction steps generalizing s with
  | nil =>
    refine ⟨rfl, ?_, fun _ => rfl⟩
    intro b hb
    exact Option.noConfusion hb
  | cons st rest ih =>
    obtain ⟨tt, pp, ee⟩ := st
    have hok := h _ (List.mem_cons_self _ _)
    cases pp with
    | some p =>
      cases ee with
      | some e => simp [recvOkB] at hok
      | none => exact ih s (fun x hx => h x (List.mem_cons_of_mem _ hx))
    | none =>
      cases ee with
      | none => simp [recvOkB] at hok
      | some e =>
        cases e with
        | eof =>
          have hred : RecordPersons ({ time := tt, person := none, err := some GoErr.eof } :: rest) s =
              ({ s with addressbook := { people := s.addressbook.people ++ [syntheticPerson] } },
               some (RecordOutcome.snapshot { people := s.addressbook.people ++ [syntheticPerson] })) := rfl
          rw [hred]
          refine ⟨rfl, ?_, ?_⟩
          · intro b hb
            have hb2 := RecordOutcome.snapshot.inj (Option.some.inj hb)
            subst hb2
            exact ⟨rfl, rfl⟩
          · intro hc
            rcases hc with hc | ⟨m, hc⟩
            · exact Option.noConfusion hc
            · exact RecordOutcome.noConfusion (Option.some.inj hc)
        | fail m =>
          have hred : RecordPersons ({ time := tt, person := none, err := some (GoErr.fail m) } :: rest) s =
              (s, some (RecordOutcome.err m)) := rfl
          rw [hred]
          refine ⟨rfl, ?_, fun _ => rfl⟩
          intro b hb
          exact RecordOutcome.noConfusion (Option.some.inj hb)

/-- Witness for C10 on a contract-conforming one-record session. -/
theorem RecordPersons_frame_witness :
    (∀ st ∈ oneRecordSession, recvOkB st = true) ∧
    (RecordPersons oneRecordSession newServer).1.savedPersons = newServer.savedPersons :=
  ⟨by decide, (RecordPersons_frame oneRecordSession newServer (by decide)).1⟩

/-- Helper: when the first matching record has a non-empty phone list,
`GetPhone` returns its first phone. -/
theorem GetPhone_find_some (saved : List Person) (q p : Person)
    (ph : PhoneNumber) (tl : List PhoneNumber)
    (hfind : saved.find? (fun r => r.id == q.id) = some p)
    (hph : p.phones = ph :: tl) :
    GetPhone saved q = GetPhoneResult.ok ph := by
  induction saved with
  | nil => exact Option.noConfusion hfind
  | cons a rest ih =>
    by_cases hid : a.id = q.id
    · rw [List.find?_cons_of_pos _ (by simp [hid])] at hfind
      obtain rfl := Option.some.inj hfind
      simp [GetPhone, hid, hph]
    · rw [List.find?_cons_of_neg _ (by simp [hid])] at hfind
      simp only [GetPhone, if_neg hid]
      exact ih hfind

/-- C7: for every request whose id occurs in the seed registry, `GetPhone`
returns the first phone entry of the first record (in insertion order)
whose id matches. -/
theorem GetPhone_seed_first_match (q : Person)
    (h : q.id ∈ exampleData.map Person.id) :
    ∃ p ph tl, exampleData.find? (fun r => r.id == q.id) = some p ∧
      p.phones = ph :: tl ∧ GetPhone exampleData q = GetPhoneResult.ok ph := by
  have hsome : (exampleData.find? (fun r => r.id == q.id)).isSome := by
    rw [List.find?_isSome]
    obtain ⟨p, hp, hid⟩ := List.mem_map.mp h
    exact ⟨p, hp, by simp [hid]⟩
  obtain ⟨p, hp⟩ := Option.isSome_iff_exists.mp hsome
  have hmem : p ∈ exampleData := List.mem_of_find?_eq_some hp
  have hall : ∀ x ∈ exampleData, x.phones = phones := by decide
  have hph : p.phones = { number := "1234", type := PhoneType.home } ::
      [ { number := "4321", type := PhoneType.work },
        { number := "4312", type := PhoneType.mobile } ] := by
    rw [hall p hmem]; rfl
  exact ⟨p, _, _, hp, hph, GetPhone_find_some exampleData q p _ _ hp hph⟩

/-- Witness for C7 at a request for seed id 3. -/
theorem GetPhone_seed_first_match_witness :
    (Person.id { name := "", id := 3, email := "", phones := [], lastUpdated := none } ∈
       exampleData.map Person.id) ∧
    ∃ p ph tl, exampleData.find?
        (fun r => r.id == Person.id { name := "", id := 3, email := "", phones := [], lastUpdated := none }) = some p ∧
      p.phones = ph :: tl ∧
      GetPhone exampleData { name := "", id := 3, email := "", phones := [], lastUpdated := none } =
        GetPhoneResult.ok ph :=
  ⟨by decide, GetPhone_seed_first_match _ (by decide)⟩

/-- Helper: the shallow slice copy reproduces the phone list. -/
theorem copySlice_eq (l : List PhoneNumber) : copySlice l = l := by
  induction l with
  | nil => rfl
  | cons ph rest ih => simp [copySlice, ih]

/-- Helper: with every network send succeeding, the send loop emits one
send event per phone, in order. -/
theorem sendLoop_success (l : List PhoneNumber) :
    sendLoop l [] = (l.map RouteEvent.send, [], true) := by
  induction l with
  | nil => rfl
  | cons ph rest ih => simp [sendLoop, ih]

/-- Helper: every `RoutePhones` trace is empty or begins with a receive. -/
theorem startsWithRecv_RoutePhones (s : PersonGuideServer) (o : List Bool)
    (ins : List RouteIn) :
    startsWithRecv (RoutePhones s o ins) = true := by
  cases ins with
  | nil => rfl
  | cons i rest => cases i <;> rfl

/-- Helper: the sends preceding the next receive in `sends ++ t` are
exactly `l` when `t` is empty or receive-headed. -/
theorem sendsBefore_sends_append (l : List PhoneNumber) (t : List RouteEvent)
    (h : startsWithRecv t = true) :
    sendsBeforeNextRecv (l.map RouteEvent.send ++ t) = l := by
  induction l with
  | nil =>
    cases t with
    | nil => rfl
    | cons e rest =>
      cases e with
      | recvMsg p => rfl
      | recvEof => rfl
      | recvErr m => rfl
      | lock => simp [startsWithRecv] at h
      | copy rn => simp [startsWithRecv] at h
      | unlock => simp [startsWithRecv] at h
      | send ph => simp [startsWithRecv] at h
      | sendFail ph => simp [startsWithRecv] at h
  | cons ph rest ih => simp [sendsBeforeNextRecv, ih]

/-- C3: with sends succeeding, an inbound record `p` produces exactly the
events lock, copy-out, unlock, then one send per phone of `p` in order,
all before the next receive; the response messages emitted between the
receive of `p` and the next receive are exactly `p`'s own phone list. -/
theorem RoutePhones_per_record (s : PersonGuideServer) (p : Person)
    (rest : List RouteIn) :
    RoutePhones s [] (RouteIn.msg p :: rest) =
      RouteEvent.recvMsg p :: RouteEvent.lock :: RouteEvent.copy p.phones ::
        RouteEvent.unlock :: (p.phones.map RouteEvent.send ++ RoutePhones s [] rest) ∧
    sendsBeforeNextRecv (List.tail (RoutePhones s [] (RouteIn.msg p :: rest))) = p.phones := by
  have hdecomp : RoutePhones s [] (RouteIn.msg p :: rest) =
      RouteEvent.recvMsg p :: RouteEvent.lock :: RouteEvent.copy p.phones ::
        RouteEvent.unlock :: (p.phones.map RouteEvent.send ++ RoutePhones s [] rest) := by
    simp [RoutePhones, copySlice_eq, sendLoop_success]
  refine ⟨hdecomp, ?_⟩
  rw [hdecomp]
  simp only [List.tail_cons, sendsBeforeNextRecv]
  exact sendsBefore_sends_append _ _ (startsWithRecv_RoutePhones s [] rest)

/-- Helper: the send loop emits only network send events. -/
theorem sendLoop_events_send (l : List PhoneNumber) (o : List Bool) :
    ∀ e ∈ (sendLoop l o).1, isSendEvent e = true := by
  induction l generalizing o with
  | nil => intro e he; exact absurd he (List.not_mem_nil e)
  | cons ph rest ih =>
    cases o with
    | nil =>
      intro e he
      simp only [sendLoop, List.mem_cons] at he
      rcases he with rfl | he
      · rfl
      · exact ih [] e he
    | cons b o2 =>
      cases b with
      | false =>
        intro e he
        simp only [sendLoop, List.mem_singleton] at he
        subst he
        rfl
      | true =>
        intro e he
        simp only [sendLoop, List.mem_cons] at he
        rcases he with rfl | he
        · rfl
        · exact ih o2 e he

/-- Helper: send events never touch the guard, so discipline over an
unheld guard skips them. -/
theorem guardRespected_sends (evs t : List RouteEvent)
    (h : ∀ e ∈ evs, isSendEvent e = true) :
    guardRespected (evs ++ t) false = guardRespected t false := by
  induction evs with
  | nil => rfl
  | cons e rest ih =>
    have he := h e (List.mem_cons_self e rest)
    have hrest := fun x hx => h x (List.mem_cons_of_mem e hx)
    cases e with
    | send ph => simpa [guardRespected] using ih hrest
    | sendFail ph => simpa [guardRespected] using ih hrest
    | recvMsg p => simp [isSendEvent] at he
    | recvEof => simp [isSendEvent] at he
    | recvErr m => simp [isSendEvent] at he
    | lock => simp [isSendEvent] at he
    | copy rn => simp [isSendEvent] at he
    | unlock => simp [isSendEvent] at he

/-- C8: in every `RoutePhones` trace — any server state, any inbound
stream, any pattern of send outcomes — the mutex is held only around the
copy-out: no send or receive ever occurs while the guard is held, every
unlock matches a lock, and the session never ends holding the guard. -/
theorem RoutePhones_guard_discipline (s : PersonGuideServer) (o : List Bool)
    (ins : List RouteIn) :
    guardRespected (RoutePhones s o ins) false = true := by
  induction ins generalizing o with
  | nil => rfl
  | cons i rest ih =>
    cases i with
    | eof => rfl
    | fail m => rfl
    | msg p =>
      simp only [RoutePhones, guardRespected, if_false]
      rw [guardRespected_sends _ _ (sendLoop_events_send (copySlice p.phones) o)]
      cases hb : (sendLoop (copySlice p.phones) o).2.2 with
      | false => simp [hb, guardRespected]
      | true => simp only [hb, if_true]; exact ih _

/-- C9: the `RoutePhones` response trace is determined solely by the
inbound stream (and send outcomes): two runs over the same inbound stream
against servers with different registry contents produce identical
traces. -/
theorem RoutePhones_registry_independent (o : List Bool)
    (s1 s2 : PersonGuideServer) (ins : List RouteIn) :
    RoutePhones s1 o ins = RoutePhones s2 o ins := by
  induction ins generalizing o with
  | nil => rfl
  | cons i rest ih =>
    cases i with
    | eof => rfl
    | fail m => rfl
    | msg p => simp only [RoutePhones]; rw [ih]
